import Mathlib

/-!
Verification of the authentication / rate-limiting cluster of the
notion-slack-ai-agent repository.

The embedding models, faithfully to the Python source:
  * `src/integrations/webhook_handlers.py`: `verify_notion_webhook`,
    `verify_slack_webhook`;
  * `src/services/auth_service.py`: `AuthService.hash_api_key`,
    `AuthService.validate_api_key`, `AuthService.check_permission`,
    `AuthService.revoke_api_key`, `SlackAuthService.verify_slack_request`;
  * `src/services/rate_limiter.py`: `RateLimiter.default_limits`,
    `RateLimiter.check_rate_limit`;
  * `src/models/models.py`: `APIKeyModel`;
  * `src/models/schemas.py`: `APIKey`;
  * `src/models/repositories.py`: `APIKeyRepository.update_usage`.

Conventions: bytes are `List Nat` (each < 256), wall-clock datetimes are
`Int` (seconds), `time.time()` values are `ℚ`.  A fallible backing store
(SQLAlchemy session / Redis connection) is modelled by an `Option` state:
`none` means every operation on it raises, which the Python code catches
in its `try/except` blocks.
-/

namespace NotionSlack

/-! ## SHA-256 and HMAC-SHA256 (the `hashlib` / `hmac` primitives) -/

/-- Truncation to a 32-bit word. -/
def w32 (x : Nat) : Nat := x % 4294967296

/-- 32-bit right rotation (for `x < 2^32`). -/
def rotr32 (n x : Nat) : Nat := x / 2 ^ n + x % 2 ^ n * 2 ^ (32 - n)

def bigSigma0 (x : Nat) : Nat := rotr32 2 x ^^^ rotr32 13 x ^^^ rotr32 22 x

def bigSigma1 (x : Nat) : Nat := rotr32 6 x ^^^ rotr32 11 x ^^^ rotr32 25 x

def smallSigma0 (x : Nat) : Nat := rotr32 7 x ^^^ rotr32 18 x ^^^ x >>> 3

def smallSigma1 (x : Nat) : Nat := rotr32 17 x ^^^ rotr32 19 x ^^^ x >>> 10

/-- SHA-256 round constants. -/
def K256 : List Nat :=
  [1116352408, 1899447441, 3049323471, 3921009573, 961987163,
   1508970993, 2453635748, 2870763221, 3624381080, 310598401,
   607225278, 1426881987, 1925078388, 2162078206, 2614888103,
   3248222580, 3835390401, 4022224774, 264347078, 604807628,
   770255983, 1249150122, 1555081692, 1996064986, 2554220882,
   2821834349, 2952996808, 3210313671, 3336571891, 3584528711,
   113926993, 338241895, 666307205, 773529912, 1294757372,
   1396182291, 1695183700, 1986661051, 2177026350, 2456956037,
   2730485921, 2820302411, 3259730800, 3345764771, 3516065817,
   3600352804, 4094571909, 275423344, 430227734, 506948616,
   659060556, 883997877, 958139571, 1322822218, 1537002063,
   1747873779, 1955562222, 2024104815, 2227730452, 2361852424,
   2428436474, 2756734187, 3204031479, 3329325298]

/-- SHA-256 initial hash value. -/
def H256 : List Nat :=
  [1779033703, 3144134277, 1013904242, 2773480762, 1359893119,
   2600822924, 528734635, 1541459225]

/-- One SHA-256 compression round; `kw` is `K[t] + W[t]`. -/
def sha256Round (regs : List Nat) (kw : Nat) : List Nat :=
  let a := regs.getD 0 0
  let b := regs.getD 1 0
  let c := regs.getD 2 0
  let d := regs.getD 3 0
  let e := regs.getD 4 0
  let f := regs.getD 5 0
  let g := regs.getD 6 0
  let hh := regs.getD 7 0
  let ch := e &&& f ^^^ (e ^^^ 4294967295) &&& g
  let maj := a &&& b ^^^ a &&& c ^^^ b &&& c
  let t1 := w32 (hh + bigSigma1 e + ch + kw)
  let t2 := w32 (bigSigma0 a + maj)
  [w32 (t1 + t2), a, b, c, w32 (d + t1), e, f, g]

/-- Append one extended message-schedule word. -/
def extendWord (ws : List Nat) : List Nat :=
  let i := ws.length
  ws ++ [w32 (smallSigma1 (ws.getD (i - 2) 0) + ws.getD (i - 7) 0 +
              smallSigma0 (ws.getD (i - 15) 0) + ws.getD (i - 16) 0)]

def extendAux : Nat → List Nat → List Nat
  | 0, ws => ws
  | n + 1, ws => extendAux n (extendWord ws)

/-- Big-endian 4-byte groups to 32-bit words. -/
def bytesToWords : List Nat → List Nat
  | b0 :: b1 :: b2 :: b3 :: rest =>
      (b0 * 16777216 + b1 * 65536 + b2 * 256 + b3) :: bytesToWords rest
  | _ => []

/-- Compress one 64-byte chunk into the running hash. -/
def sha256Compress (hs : List Nat) (chunk : List Nat) : List Nat :=
  let ws := extendAux 48 (bytesToWords chunk)
  let regs := (List.range 64).foldl
    (fun r t => sha256Round r (w32 (K256.getD t 0 + ws.getD t 0))) hs
  List.zipWith (fun x y => w32 (x + y)) hs regs

/-- SHA-256 padding: `0x80`, zeros, then the 8-byte big-endian bit length. -/
def sha256Pad (msg : List Nat) : List Nat :=
  let L := msg.length
  let zeros := (120 - (L + 1) % 64) % 64
  msg ++ [128] ++ List.replicate zeros 0 ++
    (List.range 8).map (fun i => 8 * L / 2 ^ (8 * (7 - i)) % 256)

def sha256Chunks (hs : List Nat) : List Nat → List Nat
  | [] => hs
  | b :: rest => sha256Chunks (sha256Compress hs ((b :: rest).take 64)) (rest.drop 63)
termination_by l => l.length
decreasing_by simp only [List.length_drop, List.length_cons]; omega

def wordBytes (w : Nat) : List Nat :=
  [w / 16777216 % 256, w / 65536 % 256, w / 256 % 256, w % 256]

/-- SHA-256 digest, as bytes. -/
def sha256Bytes (msg : List Nat) : List Nat :=
  ((sha256Chunks H256 (sha256Pad msg)).map wordBytes).flatten

def hexChar (n : Nat) : Char := "0123456789abcdef".toList.getD n '0'

/-- Lowercase hexadecimal rendering of a byte string (`.hexdigest()`). -/
def bytesToHex (bs : List Nat) : String :=
  String.mk ((bs.map (fun b => [hexChar (b / 16), hexChar (b % 16)])).flatten)

/-- HMAC-SHA256 (`hmac.new(key, msg, hashlib.sha256)`), as bytes. -/
def hmacSha256 (key msg : List Nat) : List Nat :=
  let k0 := if key.length > 64 then sha256Bytes key else key
  let kpad := k0 ++ List.replicate (64 - k0.length) 0
  sha256Bytes (kpad.map (fun b => b ^^^ 92) ++
    sha256Bytes (kpad.map (fun b => b ^^^ 54) ++ msg))

/-- `hmac.new(key, msg, hashlib.sha256).hexdigest()`. -/
def hmacSha256Hex (key msg : List Nat) : String := bytesToHex (hmacSha256 key msg)

/-- UTF-8 bytes of a string (`str.encode()`). -/
def strBytes (s : String) : List Nat := s.toUTF8.toList.map (fun b => b.toNat)

/-- `hmac.compare_digest` on two hex strings: equality (the constant-time
execution profile is a non-functional property outside the embedding). -/
def compare_digest (a b : String) : Bool := a == b

/-! ## Webhook signature verifiers (`src/integrations/webhook_handlers.py`) -/

/-- `verify_notion_webhook(request_body, signature, webhook_secret)`:
HMAC-SHA256 over the raw body, hex digest, constant-time compare. -/
def verify_notion_webhook (request_body : List Nat) (signature : String)
    (webhook_secret : String) : Bool :=
  let expected_signature := hmacSha256Hex (strBytes webhook_secret) request_body
  compare_digest signature expected_signature

/-- `verify_slack_webhook(request_body, timestamp, signature, signing_secret)`.
The body is modelled as a `String` because the source builds the base string
with `request_body.decode()` (a body that is valid UTF-8).  Note the source
performs NO timestamp-window check: `timestamp` only enters the base string. -/
def verify_slack_webhook (request_body : String) (timestamp : String)
    (signature : String) (signing_secret : String) : Bool :=
  let sig_basestring := "v0:" ++ timestamp ++ ":" ++ request_body
  let expected_signature := "v0=" ++ hmacSha256Hex (strBytes signing_secret) (strBytes sig_basestring)
  compare_digest signature expected_signature

def digitsToNat? (cs : List Char) : Option Nat :=
  match cs with
  | [] => none
  | _ => if cs.all Char.isDigit then
      some (cs.foldl (fun n c => 10 * n + (c.toNat - 48)) 0)
    else none

/-- Python `int(s)` on a decimal string: optional minus sign followed by
digits (Python additionally strips whitespace and accepts `+` and `_`
separators; those inputs are outside the timestamps this code receives).
A `ValueError` is `none`. -/
def parseInt (s : String) : Option Int :=
  match s.data with
  | '-' :: cs => (digitsToNat? cs).map (fun n => -(n : Int))
  | cs => (digitsToNat? cs).map (fun n => (n : Int))

/-- `SlackAuthService.verify_slack_request(body, timestamp, signature)` from
`src/services/auth_service.py`.  `now` is `int(datetime.utcnow().timestamp())`;
`int(timestamp)` is modelled by `parseInt`, whose failure is caught by
the surrounding `except` and yields `False`. -/
def verify_slack_request (slack_signing_secret : String) (now : Int)
    (body : String) (timestamp : String) (signature : String) : Bool :=
  match parseInt timestamp with
  | none => false
  | some request_timestamp =>
    if 300 < (now - request_timestamp).natAbs then false
    else
      let sig_basestring := "v0:" ++ timestamp ++ ":" ++ body
      let expected_signature :=
        "v0=" ++ hmacSha256Hex (strBytes slack_signing_secret) (strBytes sig_basestring)
      compare_digest signature expected_signature

/-! ## API key management (`src/services/auth_service.py`) -/

/-- The `api_keys` record of `src/models/models.py` (`APIKeyModel`), restricted
to the columns the verified operations read or write. -/
structure APIKeyModel where
  key_id : String
  key_hash : String
  name : String := ""
  permissions : List String := []
  rate_limit : Nat := 1000
  last_used : Option Int := none
  is_active : Bool := true
  expires_at : Option Int := none
deriving DecidableEq

/-- `AuthService.hash_api_key`: `hashlib.sha256(api_key.encode()).hexdigest()`. -/
def hash_api_key (api_key : String) : String :=
  bytesToHex (sha256Bytes (strBytes api_key))

/-- Replace the first element satisfying `p` by its image under `f`
(the effect of mutating the record returned by `query(...).first()`
and committing). -/
def updateFirst (p : α → Bool) (f : α → α) : List α → List α
  | [] => []
  | x :: xs => if p x then f x :: xs else x :: updateFirst p f xs

/-- The filter of `validate_api_key`'s query:
`APIKeyModel.key_hash == key_hash, APIKeyModel.is_active == True`. -/
def validMatch (key_hash : String) (m : APIKeyModel) : Bool :=
  m.key_hash == key_hash && m.is_active

/-- `AuthService.validate_api_key(api_key)`.  The database session is
`Option (List APIKeyModel)`; `none` models the store raising, which the
`except` clause turns into `None`.  `now` is `datetime.utcnow()`.  Returns
the result together with the table after the call. -/
def validate_api_key (db? : Option (List APIKeyModel)) (api_key : String)
    (now : Int) : Option APIKeyModel × Option (List APIKeyModel) :=
  match db? with
  | none => (none, none)
  | some db =>
    let key_hash := hash_api_key api_key
    match db.find? (validMatch key_hash) with
    | none => (none, some db)
    | some m =>
      if m.expires_at.any (fun e => decide (e < now)) then
        (none, some db)
      else
        let m' := { m with last_used := some now }
        (some m', some (updateFirst (validMatch key_hash) (fun r => { r with last_used := some now }) db))

/-- `AuthService.check_permission(api_key_model, required_permission)`. -/
def check_permission (api_key_model : APIKeyModel) (required_permission : String) : Bool :=
  if api_key_model.permissions.isEmpty then true
  else if api_key_model.permissions.contains "*" then true
  else api_key_model.permissions.contains required_permission

/-- `AuthService.revoke_api_key(key_id)`: deactivate the first record with
that `key_id`; `True` when a record was found, `False` otherwise (also on a
store error, caught by the `except` clause). -/
def revoke_api_key (db? : Option (List APIKeyModel)) (key_id : String) :
    Bool × Option (List APIKeyModel) :=
  match db? with
  | none => (false, none)
  | some db =>
    match db.find? (fun m => m.key_id == key_id) with
    | none => (false, some db)
    | some _ =>
      (true, some (updateFirst (fun m => m.key_id == key_id) (fun m => { m with is_active := false }) db))

/-- The `api_keys` record of `src/models/schemas.py` (`APIKey`), the sibling
table that carries the usage-tracking columns. -/
structure APIKey where
  key_id : String
  key_hash : String
  scopes : List String := []
  rate_limit_per_hour : Nat := 1000
  last_used_at : Option Int := none
  total_requests : Nat := 0
  current_hour_requests : Nat := 0
  last_hour_reset : Int := 0
  is_active : Bool := true
  expires_at : Option Int := none
deriving DecidableEq

/-- `APIKeyRepository.update_usage(key_id)` from `src/models/repositories.py`:
reset the hourly counter if the hour has rolled over, then increment the
hourly and lifetime counters and stamp `last_used_at`.  (No code path in the
repository calls this.) -/
def update_usage (db : List APIKey) (key_id : String) (now : Int) :
    Option APIKey × List APIKey :=
  match db.find? (fun m => m.key_id == key_id) with
  | none => (none, db)
  | some m =>
    let m1 := if m.last_hour_reset < now - 3600 then
        { m with current_hour_requests := 0, last_hour_reset := now }
      else m
    let m2 := { m1 with current_hour_requests := m1.current_hour_requests + 1,
                        total_requests := m1.total_requests + 1,
                        last_used_at := some now }
    (some m2, updateFirst (fun r => r.key_id == key_id) (fun _ => m2) db)

/-! ## Rate limiter (`src/services/rate_limiter.py`) -/

/-- `RateLimit` dataclass. -/
structure RateLimit where
  requests : Nat
  window_seconds : Nat
  burst_allowance : Nat := 0
deriving DecidableEq

/-- `RateLimiter.default_limits` (`__init__`). -/
def default_limits (limit_type : String) : Option RateLimit :=
  if limit_type = "api" then some ⟨1000, 3600, 0⟩
  else if limit_type = "webhook" then some ⟨100, 60, 0⟩
  else if limit_type = "user" then some ⟨60, 60, 0⟩
  else if limit_type = "ip" then some ⟨100, 60, 0⟩
  else if limit_type = "slack_command" then some ⟨10, 60, 0⟩
  else if limit_type = "notion_api" then some ⟨1000, 3600, 0⟩
  else if limit_type = "slack_api" then some ⟨50, 60, 0⟩
  else none

/-- The `"api"` entry of `default_limits`, the fallback of
`self.default_limits.get(limit_type, self.default_limits["api"])`. -/
def apiLimit : RateLimit := ⟨1000, 3600, 0⟩

/-- The rate-limit metadata dictionary returned by `check_rate_limit`:
either the populated dictionary or `{"error": "rate_limiter_unavailable"}`. -/
inductive RLMeta where
  | ok (limit : Nat) (remaining : Int) (reset_time : Option ℚ)
       (window_seconds : Nat) (current_count : Nat)
  | unavailable
deriving DecidableEq

/-- `ZRANGE key 0 0`: the smallest score of the sorted set. -/
def listMin? : List ℚ → Option ℚ
  | [] => none
  | x :: xs =>
    match listMin? xs with
    | none => some x
    | some m => some (min x m)

/-- The body of `RateLimiter.check_rate_limit` once `rate_limit` is resolved,
for one identifier.  The Redis sorted set for the identifier's key is a
duplicate-free `List ℚ` of scores (`zadd` uses member `str(now)` with score
`now`, so members coincide exactly when scores do); `none` models
`redis.RedisError`, which the `except` clause turns into the fail-open
result.  The pipeline evicts scores `≤ now - window`, counts, adds `now`,
and the client rolls the add back with `zrem` when the count exceeds the
quota. -/
def check_rate_limit_core (st? : Option (List ℚ)) (now : ℚ)
    (rate_limit : RateLimit) : Bool × RLMeta × Option (List ℚ) :=
  match st? with
  | none => (true, RLMeta.unavailable, none)
  | some st =>
    let window_start := now - rate_limit.window_seconds
    let st1 := st.filter (fun t => decide (window_start < t))
    let st2 := if st1.contains now then st1 else now :: st1
    let current_count := st1.length + 1
    let allowed := current_count ≤ rate_limit.requests
    let st3 := if allowed then st2 else st2.erase now
    let reset_time := (listMin? st3).map (fun t => t + (rate_limit.window_seconds : ℚ))
    (allowed,
     RLMeta.ok rate_limit.requests (max 0 ((rate_limit.requests : Int) - current_count))
       reset_time rate_limit.window_seconds current_count,
     some st3)

/-- `rate_limit = custom_limit or self.default_limits.get(limit_type,
self.default_limits["api"])` (line 58 of `rate_limiter.py`). -/
def resolved_limit (limit_type : String) (custom_limit : Option RateLimit) : RateLimit :=
  custom_limit.getD ((default_limits limit_type).getD apiLimit)

/-- `RateLimiter.check_rate_limit(key, limit_type, custom_limit)`. -/
def check_rate_limit (st? : Option (List ℚ)) (now : ℚ) (limit_type : String)
    (custom_limit : Option RateLimit) : Bool × RLMeta × Option (List ℚ) :=
  check_rate_limit_core st? now (resolved_limit limit_type custom_limit)

/-- A sequence of sequential `check_rate_limit` calls for one identifier,
collecting the `allowed` results and threading the stored set. -/
def runChecks (rl : RateLimit) (st? : Option (List ℚ)) :
    List ℚ → List Bool × Option (List ℚ)
  | [] => ([], st?)
  | t :: ts =>
    let r := check_rate_limit st? t "api" (some rl)
    let rest := runChecks rl r.2.2 ts
    (r.1 :: rest.1, rest.2)

/-! ## Concrete fixtures used by the closed evaluation theorems -/

/-- A live, unexpired `APIKeyModel` row whose hash matches secret `"sk_test"`. -/
def testKey : APIKeyModel :=
  { key_id := "ak_test", key_hash := hash_api_key "sk_test", name := "test" }

/-- The corresponding `schemas.APIKey` row with usage-tracking columns. -/
def testKeyUsage : APIKey :=
  { key_id := "ak_test", key_hash := hash_api_key "sk_test" }

/-! # Theorems -/

/-- C9: for every (body, secret) pair, verifying with the expected signature
computed by the specified procedure returns true: Notion verification of the
hex HMAC-SHA256 digest of the raw body succeeds, and Slack verification of
`"v0="` plus the hex HMAC-SHA256 digest of `"v0:" ++ timestamp ++ ":" ++ body`
succeeds when supplied as the claimed signature. -/
theorem verify_with_computed_signature_succeeds
    (body : List Nat) (sbody ts secret : String) :
    verify_notion_webhook body (hmacSha256Hex (strBytes secret) body) secret = true ∧
    verify_slack_webhook sbody ts
      ("v0=" ++ hmacSha256Hex (strBytes secret) (strBytes ("v0:" ++ ts ++ ":" ++ sbody)))
      secret = true := by
  constructor <;> simp [verify_notion_webhook, verify_slack_webhook, compare_digest]

/-- C1 (failing-input evaluation): `verify_slack_webhook` performs no
timestamp-window check at all — with the stale timestamp `"0"` and the
matching signature it returns `true`, and it never reads the current time. -/
theorem slack_webhook_accepts_stale_timestamp :
    verify_slack_webhook "payload" "0"
      ("v0=" ++ hmacSha256Hex (strBytes "secret") (strBytes ("v0:" ++ "0" ++ ":" ++ "payload")))
      "secret" = true := by
  simp [verify_slack_webhook, compare_digest]

/-- `SlackAuthService.verify_slack_request`, by contrast, does reject a
timestamp outside the 300-second window before any signature comparison
(supporting fact for C1; this is the sibling implementation the claim
describes correctly). -/
theorem slack_request_rejects_stale_timestamp
    (secret : String) (now : Int) (body ts sig : String) (t : Int)
    (hparse : parseInt ts = some t) (hstale : 300 < (now - t).natAbs) :
    verify_slack_request secret now body ts sig = false := by
  simp [verify_slack_request, hparse, hstale]

/-- Witness for `slack_request_rejects_stale_timestamp` at a concrete input. -/
theorem slack_request_rejects_stale_timestamp_witness :
    (parseInt "0" = some 0 ∧ 300 < ((1000 : Int) - 0).natAbs) ∧
    verify_slack_request "secret" 1000 "payload" "0" "sig" = false :=
  ⟨⟨by decide, by decide⟩,
   slack_request_rejects_stale_timestamp "secret" 1000 "payload" "0" "sig" 0
     (by decide) (by decide)⟩

/-- C2 (failing-input evaluation): on a successful validation,
`validate_api_key` changes `last_used` and nothing else — no usage counter is
touched (the `APIKeyModel` table has none); the hour-counter logic exists only
in `APIKeyRepository.update_usage`, shown alongside, which no code path calls. -/
theorem validate_updates_only_last_used :
    validate_api_key (some [testKey]) "sk_test" 100 =
      (some { testKey with last_used := some 100 },
       some [{ testKey with last_used := some 100 }]) ∧
    (update_usage [testKeyUsage] "ak_test" 100).2 =
      [{ testKeyUsage with current_hour_requests := 1, total_requests := 1,
                           last_used_at := some 100 }] := by
  constructor
  · simp [validate_api_key, validMatch, testKey, List.find?, updateFirst]
  · simp [update_usage, testKeyUsage, List.find?, updateFirst]

/-- C5: when the backing store raises, `check_rate_limit` fails open (allows
the request, flagging the metadata as unavailable) while `validate_api_key`
fails closed (returns `None`, admitting no key). -/
theorem store_error_fail_open_fail_closed
    (now : ℚ) (limit_type : String) (custom : Option RateLimit)
    (secret : String) (t : Int) :
    check_rate_limit none now limit_type custom = (true, RLMeta.unavailable, none) ∧
    validate_api_key none secret t = (none, none) :=
  ⟨rfl, rfl⟩

/-- C8: `check_permission` returns true exactly when the key's permission
list is empty, contains the wildcard `"*"`, or contains the required
permission. -/
theorem check_permission_iff (m : APIKeyModel) (required_permission : String) :
    check_permission m required_permission = true ↔
      (m.permissions = [] ∨ "*" ∈ m.permissions ∨ required_permission ∈ m.permissions) := by
  unfold check_permission
  split
  · simp_all [List.isEmpty_iff]
  · split
    · simp_all
    · simp_all [List.isEmpty_iff]

/-- C10: an unrecognized `limit_type` has no entry in `default_limits`, so
`check_rate_limit` silently falls back to the `"api"` default of 1000
requests per 3600 seconds and behaves exactly as it would for `"api"`. -/
theorem unknown_limit_type_gets_api_limit (limit_type : String)
    (h : limit_type ∉ ["api", "webhook", "user", "ip", "slack_command", "notion_api", "slack_api"])
    (st? : Option (List ℚ)) (now : ℚ) :
    default_limits limit_type = none ∧
    (default_limits limit_type).getD apiLimit = RateLimit.mk 1000 3600 0 ∧
    check_rate_limit st? now limit_type none = check_rate_limit st? now "api" none := by
  simp only [List.mem_cons, List.not_mem_nil, or_false, not_or] at h
  obtain ⟨h1, h2, h3, h4, h5, h6, h7⟩ := h
  have hd : default_limits limit_type = none := by
    simp [default_limits, h1, h2, h3, h4, h5, h6, h7]
  refine ⟨hd, by rw [hd]; rfl, ?_⟩
  have hres : resolved_limit limit_type none = resolved_limit "api" none := by
    unfold resolved_limit
    rw [hd]
    rfl
  simp only [check_rate_limit, hres]

/-- The value `check_rate_limit_core` stores back for the identifier,
written out from the definition (eviction filter, conditional `zadd`,
conditional rollback `zrem`). -/
theorem check_core_state_shape (st : List ℚ) (now : ℚ) (rl : RateLimit) :
    (check_rate_limit_core (some st) now rl).2.2 =
      some (if (st.filter (fun t => decide (now - (rl.window_seconds : ℚ) < t))).length + 1 ≤ rl.requests
            then (if (st.filter (fun t => decide (now - (rl.window_seconds : ℚ) < t))).contains now
                  then st.filter (fun t => decide (now - (rl.window_seconds : ℚ) < t))
                  else now :: st.filter (fun t => decide (now - (rl.window_seconds : ℚ) < t)))
            else (if (st.filter (fun t => decide (now - (rl.window_seconds : ℚ) < t))).contains now
                  then st.filter (fun t => decide (now - (rl.window_seconds : ℚ) < t))
                  else now :: st.filter (fun t => decide (now - (rl.window_seconds : ℚ) < t))).erase now) :=
  rfl

/-- The `allowed` flag `check_rate_limit_core` returns, written out from the
definition. -/
theorem check_core_fst_shape (st : List ℚ) (now : ℚ) (rl : RateLimit) :
    (check_rate_limit_core (some st) now rl).1 =
      decide ((st.filter (fun t => decide (now - (rl.window_seconds : ℚ) < t))).length + 1 ≤ rl.requests) :=
  rfl

/-- C4: after every `check_rate_limit` call, admitted or rejected, the stored
set holds at most `quota` entries, all inside the trailing window; a rejected
request's provisionally added timestamp is removed rather than committed,
leaving exactly the evicted pre-state. -/
theorem check_rate_limit_window_invariant (st : List ℚ) (now : ℚ)
    (rl : RateLimit) (limit_type : String)
    (hlen : st.length ≤ rl.requests) (hw : 0 < (rl.window_seconds : ℚ)) :
    ∃ l, (check_rate_limit (some st) now limit_type (some rl)).2.2 = some l ∧
      l.length ≤ rl.requests ∧
      (∀ x ∈ l, now - (rl.window_seconds : ℚ) < x) ∧
      ((check_rate_limit (some st) now limit_type (some rl)).1 = false → now ∉ st →
        l = st.filter (fun t => decide (now - (rl.window_seconds : ℚ) < t))) := by
  have hcore : check_rate_limit (some st) now limit_type (some rl) =
      check_rate_limit_core (some st) now rl := rfl
  rw [hcore, check_core_state_shape st now rl, check_core_fst_shape st now rl]
  set st1 := st.filter (fun t => decide (now - (rl.window_seconds : ℚ) < t)) with hst1
  have hst1len : st1.length ≤ st.length := st.length_filter_le _
  have hst1mem : ∀ x ∈ st1, now - (rl.window_seconds : ℚ) < x := by
    intro x hx
    exact of_decide_eq_true (List.mem_filter.mp hx).2
  by_cases hall : st1.length + 1 ≤ rl.requests
  · rw [if_pos hall]
    have hdec : ¬(decide (st1.length + 1 ≤ rl.requests) = false) := by
      simp [hall]
    by_cases hcont : st1.contains now = true
    · refine ⟨st1, by rw [if_pos hcont], by omega, hst1mem, fun h => absurd h hdec⟩
    · refine ⟨now :: st1, by rw [if_neg hcont], by simpa using hall, ?_, fun h => absurd h hdec⟩
      intro x hx
      rcases List.mem_cons.mp hx with rfl | hx'
      · linarith
      · exact hst1mem x hx'
  · rw [if_neg hall]
    by_cases hcont : st1.contains now = true
    · refine ⟨st1.erase now, by rw [if_pos hcont], ?_, ?_, ?_⟩
      · calc (st1.erase now).length ≤ st1.length := (st1.erase_sublist now).length_le
          _ ≤ rl.requests := by omega
      · intro x hx; exact hst1mem x (List.mem_of_mem_erase hx)
      · intro _ habs
        have : now ∈ st1 := by simpa [List.contains] using hcont
        exact absurd ((List.mem_filter.mp this).1) habs
    · refine ⟨st1, ?_, by omega, hst1mem, fun _ _ => hst1⟩
      rw [if_neg hcont, List.erase_cons_head]

/-- `updateFirst` with an update that does not change the selection predicate
finds the updated element again. -/
theorem find?_isSome_updateFirst {α} (p : α → Bool) (f : α → α)
    (hp : ∀ x, p (f x) = p x) :
    ∀ l : List α, ((updateFirst p f l).find? p).isSome = (l.find? p).isSome := by
  intro l
  induction l with
  | nil => rfl
  | cons x xs ih =>
    by_cases hx : p x = true
    · rw [updateFirst, if_pos hx, List.find?_cons_of_pos _ (by rw [hp]; exact hx),
        List.find?_cons_of_pos _ hx]
      rfl
    · rw [updateFirst, if_neg hx, List.find?_cons_of_neg _ hx,
        List.find?_cons_of_neg _ hx]
      exact ih

/-- `updateFirst` with an idempotent, predicate-preserving update is
idempotent. -/
theorem updateFirst_idem {α} (p : α → Bool) (f : α → α)
    (hp : ∀ x, p (f x) = p x) (hf : ∀ x, f (f x) = f x) :
    ∀ l : List α, updateFirst p f (updateFirst p f l) = updateFirst p f l := by
  intro l
  induction l with
  | nil => rfl
  | cons x xs ih =>
    by_cases hx : p x = true
    · rw [updateFirst, if_pos hx, updateFirst, if_pos (by rw [hp]; exact hx), hf]
    · rw [updateFirst, if_neg hx, updateFirst, if_neg hx, ih]

/-- If no record carries `kid`, no record matches the secret whose hash only
`kid`-records may carry. -/
theorem no_valid_match_of_no_kid (secret kid : String) (db : List APIKeyModel)
    (hhash : ∀ r ∈ db, r.key_hash = hash_api_key secret → r.key_id = kid)
    (hnone : ∀ x ∈ db, ¬((x.key_id == kid) = true)) :
    ∀ m ∈ db, validMatch (hash_api_key secret) m = false := by
  intro m hm
  by_cases hk : m.key_hash = hash_api_key secret
  · exact absurd (by simpa using hhash m hm hk) (hnone m hm)
  · simp [validMatch, hk]

/-- After deactivating the first `kid`-record, no record passes
`validate_api_key`'s active-and-hash filter, provided the secret's hash only
matches `kid`-records and `kid` occurs at most once. -/
theorem no_valid_match_after_revoke (secret kid : String) :
    ∀ db : List APIKeyModel,
      (∀ r ∈ db, r.key_hash = hash_api_key secret → r.key_id = kid) →
      (db.filter (fun r => r.key_id == kid)).length ≤ 1 →
      ∀ m ∈ updateFirst (fun r => r.key_id == kid)
          (fun r => { r with is_active := false }) db,
        validMatch (hash_api_key secret) m = false := by
  intro db
  induction db with
  | nil => intro _ _ m hm; simp [updateFirst] at hm
  | cons r rs ih =>
    intro hhash huniq m hm
    by_cases hr : (r.key_id == kid) = true
    · rw [updateFirst, if_pos hr] at hm
      rcases List.mem_cons.mp hm with rfl | hm2
      · simp [validMatch]
      · have hfil : (rs.filter (fun x => x.key_id == kid)).length = 0 := by
          simp only [List.filter_cons, hr, if_true, List.length_cons] at huniq
          omega
        have hnone : ∀ x ∈ rs, ¬((x.key_id == kid) = true) := by
          rw [List.length_eq_zero, List.filter_eq_nil_iff] at hfil
          exact hfil
        exact no_valid_match_of_no_kid secret kid rs
          (fun x hx => hhash x (List.mem_cons_of_mem r hx)) hnone m hm2
    · rw [updateFirst, if_neg hr] at hm
      rcases List.mem_cons.mp hm with rfl | hm2
      · by_cases hk : m.key_hash = hash_api_key secret
        · exact absurd (by simpa using hhash m (List.mem_cons_self m rs) hk) hr
        · simp [validMatch, hk]
      · refine ih (fun x hx => hhash x (List.mem_cons_of_mem r hx)) ?_ m hm2
        rw [@List.filter_cons_of_neg _ (fun m => m.key_id == kid) r rs hr] at huniq
        exact huniq

/-- If nothing in the table passes the active-and-hash filter, validation
returns `None`. -/
theorem validate_none_of_no_match (db : List APIKeyModel) (secret : String)
    (now : Int) (h : ∀ m ∈ db, validMatch (hash_api_key secret) m = false) :
    (validate_api_key (some db) secret now).1 = none := by
  have hfind : db.find? (validMatch (hash_api_key secret)) = none :=
    List.find?_eq_none.mpr (by intro x hx; simp [h x hx])
  simp [validate_api_key, hfind]

/-- C7: `revoke` returns true exactly when a record with the `key_id` exists
(already-revoked included), so a second revocation returns the same result and
leaves the same state; and once a created key (the only record matching its
secret's hash, `key_id` unique) is revoked, validating its secret returns
`None`. -/
theorem revoke_blocks_validate_and_idempotent
    (db : List APIKeyModel) (kid secret : String) (now : Int)
    (hhash : ∀ r ∈ db, r.key_hash = hash_api_key secret → r.key_id = kid)
    (huniq : (db.filter (fun r => r.key_id == kid)).length ≤ 1) :
    ((revoke_api_key (some db) kid).1 = true ↔ ∃ r ∈ db, r.key_id = kid) ∧
    revoke_api_key (revoke_api_key (some db) kid).2 kid = revoke_api_key (some db) kid ∧
    (validate_api_key (revoke_api_key (some db) kid).2 secret now).1 = none := by
  have hp : ∀ x : APIKeyModel,
      (({ x with is_active := false } : APIKeyModel).key_id == kid) = (x.key_id == kid) :=
    fun x => rfl
  refine ⟨?_, ?_, ?_⟩
  · cases hfind : db.find? (fun m => m.key_id == kid) with
    | none =>
      simp only [revoke_api_key, hfind]
      rw [List.find?_eq_none] at hfind
      constructor
      · intro h
        exact absurd h (by simp)
      · rintro ⟨r, hr, hkid⟩
        exact absurd (by simp [hkid]) (hfind r hr)
    | some r =>
      simp only [revoke_api_key, hfind, true_iff]
      have hmem := List.mem_of_find?_eq_some hfind
      have hprop := List.find?_some hfind
      exact ⟨r, hmem, by simpa using hprop⟩
  · cases hfind : db.find? (fun m => m.key_id == kid) with
    | none => simp only [revoke_api_key, hfind]
    | some r =>
      have hsome : ((updateFirst (fun m => m.key_id == kid)
          (fun m => { m with is_active := false }) db).find?
            (fun m => m.key_id == kid)).isSome = true := by
        rw [find?_isSome_updateFirst _ _ hp, hfind]
        rfl
      cases hfind2 : (updateFirst (fun m => m.key_id == kid)
          (fun m => { m with is_active := false }) db).find?
            (fun m => m.key_id == kid) with
      | none => rw [hfind2] at hsome; simp at hsome
      | some r2 =>
        simp only [revoke_api_key, hfind, hfind2]
        rw [updateFirst_idem (fun m => m.key_id == kid)
          (fun m => { m with is_active := false }) hp (fun x => rfl) db]
  · cases hfind : db.find? (fun m => m.key_id == kid) with
    | none =>
      simp only [revoke_api_key, hfind]
      rw [List.find?_eq_none] at hfind
      exact validate_none_of_no_match db secret now
        (no_valid_match_of_no_kid secret kid db hhash hfind)
    | some r =>
      simp only [revoke_api_key, hfind]
      exact validate_none_of_no_match _ secret now
        (no_valid_match_after_revoke secret kid db hhash huniq)

/-- Witness for `revoke_blocks_validate_and_idempotent` on a one-row table. -/
theorem revoke_blocks_validate_and_idempotent_witness :
    ((∀ r ∈ [testKey], r.key_hash = hash_api_key "sk_test" → r.key_id = "ak_test") ∧
     ([testKey].filter (fun r => r.key_id == "ak_test")).length ≤ 1) ∧
    (((revoke_api_key (some [testKey]) "ak_test").1 = true ↔
        ∃ r ∈ [testKey], r.key_id = "ak_test") ∧
     revoke_api_key (revoke_api_key (some [testKey]) "ak_test").2 "ak_test" =
       revoke_api_key (some [testKey]) "ak_test" ∧
     (validate_api_key (revoke_api_key (some [testKey]) "ak_test").2 "sk_test" 100).1 = none) := by
  have h1 : ∀ r ∈ [testKey], r.key_hash = hash_api_key "sk_test" → r.key_id = "ak_test" := by
    intro r hr _
    simp only [List.mem_singleton] at hr
    subst hr
    rfl
  have h2 : ([testKey].filter (fun r => r.key_id == "ak_test")).length ≤ 1 := by
    simp [testKey]
  exact ⟨⟨h1, h2⟩,
    revoke_blocks_validate_and_idempotent [testKey] "ak_test" "sk_test" 100 h1 h2⟩

/-- Witness for `check_rate_limit_window_invariant` at a concrete input:
one stored in-window timestamp, quota 2, window 60, call at time 6. -/
theorem check_rate_limit_window_invariant_witness :
    (([(5 : ℚ)].length ≤ 2 ∧ (0 : ℚ) < ((60 : Nat) : ℚ)) ∧
     ∃ l, (check_rate_limit (some [(5 : ℚ)]) 6 "api" (some ⟨2, 60, 0⟩)).2.2 = some l ∧
       l.length ≤ 2 ∧
       (∀ x ∈ l, (6 : ℚ) - ((60 : Nat) : ℚ) < x) ∧
       ((check_rate_limit (some [(5 : ℚ)]) 6 "api" (some ⟨2, 60, 0⟩)).1 = false →
         (6 : ℚ) ∉ [(5 : ℚ)] →
         l = [(5 : ℚ)].filter (fun t => decide ((6 : ℚ) - ((60 : Nat) : ℚ) < t)))) :=
  ⟨⟨by norm_num, by norm_num⟩,
   check_rate_limit_window_invariant [(5 : ℚ)] 6 ⟨2, 60, 0⟩ "api" (by norm_num) (by norm_num)⟩

/-- A check with every stored timestamp still inside the window and a fresh
`now`: the `allowed` flag is a pure count comparison. -/
theorem check_step_fst (st : List ℚ) (now : ℚ) (rl : RateLimit)
    (hin : ∀ x ∈ st, now - (rl.window_seconds : ℚ) < x) :
    (check_rate_limit (some st) now "api" (some rl)).1 =
      decide (st.length + 1 ≤ rl.requests) := by
  have h : (check_rate_limit_core (some st) now rl).1 =
      decide (st.length + 1 ≤ rl.requests) := by
    rw [check_core_fst_shape,
      List.filter_eq_self.mpr (fun x hx => decide_eq_true (hin x hx))]
  exact h

/-- Same situation, stored-set evolution: the timestamp is committed exactly
when the call is admitted. -/
theorem check_step_state (st : List ℚ) (now : ℚ) (rl : RateLimit)
    (hin : ∀ x ∈ st, now - (rl.window_seconds : ℚ) < x) (hnm : now ∉ st) :
    (check_rate_limit (some st) now "api" (some rl)).2.2 =
      some (if st.length + 1 ≤ rl.requests then now :: st else st) := by
  have h : (check_rate_limit_core (some st) now rl).2.2 =
      some (if st.length + 1 ≤ rl.requests then now :: st else st) := by
    rw [check_core_state_shape,
      List.filter_eq_self.mpr (fun x hx => decide_eq_true (hin x hx))]
    have hcont : st.contains now = false := by simp [List.contains, hnm]
    simp only [hcont, Bool.false_eq_true, if_false]
    by_cases hall : st.length + 1 ≤ rl.requests
    · rw [if_pos hall, if_pos hall]
    · rw [if_neg hall, if_neg hall, List.erase_cons_head]
  exact h

/-- A check whose stored timestamps are all at least one window old evicts
everything and admits (for a positive quota). -/
theorem check_step_all_stale (st : List ℚ) (now : ℚ) (rl : RateLimit)
    (hst : ∀ x ∈ st, x ≤ now - (rl.window_seconds : ℚ)) (hq : 1 ≤ rl.requests) :
    (check_rate_limit (some st) now "api" (some rl)).1 = true := by
  have hfil : st.filter (fun t => decide (now - (rl.window_seconds : ℚ) < t)) = [] := by
    rw [List.filter_eq_nil_iff]
    intro x hx
    simp only [decide_eq_true_eq, not_lt]
    exact hst x hx
  have h : (check_rate_limit_core (some st) now rl).1 = true := by
    rw [check_core_fst_shape, hfil]
    exact decide_eq_true (by simpa using hq)
  exact h

/-- Evolution of a sequence of strictly increasing calls inside one window,
starting from a set `acc` of earlier in-window timestamps: call `i` is
admitted exactly if `acc.length + i + 1 ≤ quota`, and the surviving stored
set only ever holds timestamps drawn from `acc` and the calls. -/
theorem runChecks_spec (rl : RateLimit) :
    ∀ (ts acc : List ℚ),
      ts.Pairwise (· < ·) →
      (∀ a ∈ acc, ∀ t ∈ ts, a < t) →
      (∀ a ∈ acc, ∀ t ∈ ts, t - a < (rl.window_seconds : ℚ)) →
      (∀ a ∈ ts, ∀ b ∈ ts, a < b → b - a < (rl.window_seconds : ℚ)) →
      (runChecks rl (some acc) ts).1 =
        (List.range ts.length).map (fun i => decide (acc.length + i + 1 ≤ rl.requests)) ∧
      ∃ l, (runChecks rl (some acc) ts).2 = some l ∧ ∀ x ∈ l, x ∈ acc ∨ x ∈ ts := by
  intro ts
  induction ts with
  | nil =>
    intro acc _ _ _ _
    exact ⟨rfl, acc, rfl, fun x hx => Or.inl hx⟩
  | cons t ts ih =>
    intro acc hpw hacc haccw htsw
    have hin : ∀ x ∈ acc, t - (rl.window_seconds : ℚ) < x := by
      intro x hx
      have := haccw x hx t (List.mem_cons_self t ts)
      linarith
    have hnm : t ∉ acc := fun hmem =>
      lt_irrefl t (hacc t hmem t (List.mem_cons_self t ts))
    have hfst := check_step_fst acc t rl hin
    have hstate := check_step_state acc t rl hin hnm
    rw [List.pairwise_cons] at hpw
    obtain ⟨hlt, hpw'⟩ := hpw
    by_cases hall : acc.length + 1 ≤ rl.requests
    · have hstate' : (check_rate_limit (some acc) t "api" (some rl)).2.2 =
          some (t :: acc) := by rw [hstate, if_pos hall]
      obtain ⟨hres, l, hl, hlmem⟩ := ih (t :: acc) hpw'
        (by
          intro a ha u hu
          rcases List.mem_cons.mp ha with rfl | ha'
          · exact hlt u hu
          · exact hacc a ha' u (List.mem_cons_of_mem t hu))
        (by
          intro a ha u hu
          rcases List.mem_cons.mp ha with rfl | ha'
          · exact htsw a (List.mem_cons_self a ts) u (List.mem_cons_of_mem a hu) (hlt u hu)
          · exact haccw a ha' u (List.mem_cons_of_mem t hu))
        (fun a ha b hb =>
          htsw a (List.mem_cons_of_mem t ha) b (List.mem_cons_of_mem t hb))
      constructor
      · simp only [runChecks]
        rw [hfst, hstate', hres]
        simp only [List.length_cons, List.range_succ_eq_map, List.map_cons, List.map_map]
        congr 1
        all_goals
          first
          | exact decide_eq_decide.mpr (by omega)
          | (refine List.map_congr_left ?_
             intro i _
             exact decide_eq_decide.mpr (by omega))
      · simp only [runChecks]
        rw [hstate']
        refine ⟨l, hl, ?_⟩
        intro x hx
        rcases hlmem x hx with hxa | hxt
        · rcases List.mem_cons.mp hxa with rfl | hxa'
          · exact Or.inr (List.mem_cons_self x ts)
          · exact Or.inl hxa'
        · exact Or.inr (List.mem_cons_of_mem t hxt)
    · have hstate' : (check_rate_limit (some acc) t "api" (some rl)).2.2 =
          some acc := by rw [hstate, if_neg hall]
      obtain ⟨hres, l, hl, hlmem⟩ := ih acc hpw'
        (fun a ha u hu => hacc a ha u (List.mem_cons_of_mem t hu))
        (fun a ha u hu => haccw a ha u (List.mem_cons_of_mem t hu))
        (fun a ha b hb =>
          htsw a (List.mem_cons_of_mem t ha) b (List.mem_cons_of_mem t hb))
      constructor
      · simp only [runChecks]
        rw [hfst, hstate', hres]
        simp only [List.length_cons, List.range_succ_eq_map, List.map_cons, List.map_map]
        congr 1
        all_goals
          first
          | exact decide_eq_decide.mpr (by omega)
          | (refine List.map_congr_left ?_
             intro i _
             exact decide_eq_decide.mpr (by omega))
      · simp only [runChecks]
        rw [hstate']
        refine ⟨l, hl, ?_⟩
        intro x hx
        rcases hlmem x hx with hxa | hxt
        · exact Or.inl hxa
        · exact Or.inr (List.mem_cons_of_mem t hxt)

/-- The admission pattern of `quota + 1` in-window calls. -/
theorem range_map_decide_replicate (q : Nat) :
    (List.range (q + 1)).map (fun i => decide (i + 1 ≤ q)) =
      List.replicate q true ++ [false] := by
  rw [List.range_succ, List.map_append]
  congr 1
  · rw [List.eq_replicate_iff]
    refine ⟨by simp, ?_⟩
    intro b hb
    rw [List.mem_map] at hb
    obtain ⟨i, hi, rfl⟩ := hb
    rw [List.mem_range] at hi
    exact decide_eq_true (by omega)
  · simp

/-- C3: from a fresh identifier, a strictly increasing sequence of
`quota + 1` calls inside one window is admitted for the first `quota` calls
and rejected on the `quota + 1`-th; a further call made after the window has
elapsed past every earlier request is admitted again. -/
theorem rate_limit_quota_sequence (rl : RateLimit) (ts : List ℚ) (t' : ℚ)
    (hq : 1 ≤ rl.requests)
    (hlen : ts.length = rl.requests + 1)
    (hsort : ts.Pairwise (· < ·))
    (hwin : ∀ a ∈ ts, ∀ b ∈ ts, a < b → b - a < (rl.window_seconds : ℚ))
    (hafter : ∀ a ∈ ts, a ≤ t' - (rl.window_seconds : ℚ)) :
    (runChecks rl (some []) ts).1 = List.replicate rl.requests true ++ [false] ∧
    (check_rate_limit (runChecks rl (some []) ts).2 t' "api" (some rl)).1 = true := by
  obtain ⟨hres, l, hl, hlmem⟩ := runChecks_spec rl ts []
    hsort
    (fun a ha => absurd ha (List.not_mem_nil a))
    (fun a ha => absurd ha (List.not_mem_nil a))
    hwin
  simp only [List.length_nil, Nat.zero_add] at hres
  constructor
  · rw [hres, hlen, range_map_decide_replicate]
  · rw [hl]
    refine check_step_all_stale l t' rl ?_ hq
    intro x hx
    rcases hlmem x hx with hxa | hxt
    · exact absurd hxa (List.not_mem_nil x)
    · exact hafter x hxt

/-- Witness for `rate_limit_quota_sequence`: quota 1, window 60, calls at
times 0 and 1, reset call at time 100. -/
theorem rate_limit_quota_sequence_witness :
    ((1 ≤ (1 : Nat)) ∧
     ([(0 : ℚ), 1]).length = 1 + 1 ∧
     ([(0 : ℚ), 1]).Pairwise (· < ·) ∧
     (∀ a ∈ [(0 : ℚ), 1], ∀ b ∈ [(0 : ℚ), 1], a < b →
        b - a < (((60 : Nat) : ℚ))) ∧
     (∀ a ∈ [(0 : ℚ), 1], a ≤ 100 - (((60 : Nat) : ℚ)))) ∧
    ((runChecks ⟨1, 60, 0⟩ (some []) [(0 : ℚ), 1]).1 =
        List.replicate 1 true ++ [false] ∧
     (check_rate_limit (runChecks ⟨1, 60, 0⟩ (some []) [(0 : ℚ), 1]).2 100 "api"
        (some ⟨1, 60, 0⟩)).1 = true) := by
  have h1 : (1 : Nat) ≤ 1 := le_refl 1
  have h2 : ([(0 : ℚ), 1]).length = 1 + 1 := rfl
  have h3 : ([(0 : ℚ), 1]).Pairwise (· < ·) := by decide
  have h4 : ∀ a ∈ [(0 : ℚ), 1], ∀ b ∈ [(0 : ℚ), 1], a < b →
      b - a < (((60 : Nat) : ℚ)) := by
    intro a ha b hb hab
    fin_cases ha <;> fin_cases hb <;> norm_num at hab ⊢
  have h5 : ∀ a ∈ [(0 : ℚ), 1], a ≤ 100 - (((60 : Nat) : ℚ)) := by
    intro a ha
    fin_cases ha <;> norm_num
  exact ⟨⟨h1, h2, h3, h4, h5⟩,
    rate_limit_quota_sequence ⟨1, 60, 0⟩ [(0 : ℚ), 1] 100 h1 h2 h3 h4 h5⟩

/-- Witness for `unknown_limit_type_gets_api_limit` at the concrete
unrecognized type `"custom"`. -/
theorem unknown_limit_type_gets_api_limit_witness :
    ("custom" ∉ ["api", "webhook", "user", "ip", "slack_command", "notion_api", "slack_api"]) ∧
    (default_limits "custom" = none ∧
     (default_limits "custom").getD apiLimit = RateLimit.mk 1000 3600 0 ∧
     check_rate_limit (some []) 0 "custom" none = check_rate_limit (some []) 0 "api" none) :=
  ⟨by decide, unknown_limit_type_gets_api_limit "custom" (by decide) (some []) 0⟩

end NotionSlack
